import Mathlib

/-!
Verification of the location-resolution and aggregation engine of the
covid19-api service (`src/app.py`).

The engine's operations (`all_country`, `history_country`, `history_region`,
`history_region_all`, `history_region_world`) are shallowly embedded below.
Python dictionaries are modelled as association lists in insertion order
(dictionary iteration order); dictionary key access is modelled with
`Option` fields plus an explicit `KeyError` path, mirroring the fact that a
missing key raises.  Every route body is wrapped in `try/except` in the
source; the `Result` type mirrors the three possible outcomes: a JSON
payload, a 404-style `response_error`, and a 500-style `response_error`.

Two leaf components are not present under `src/` and are modelled from the
specification: the identifier matcher `pattern_match` and the snapshot
loader `read_json` live in `src/utils.py` (absent), and the result cache is
the external `flask_caching` library configured in `src/app.py`.
-/

namespace Covid

/-- A JSON scalar stored as a per-date count: either a number or a string
(counts may be serialized as numeric strings). -/
inductive JVal : Type where
  | jint (i : Int)
  | jstr (s : String)
deriving DecidableEq, Repr

/-- Interpret a nonempty list of decimal digit characters as a natural
number; `none` when empty or when any character is not a digit.  Helper for
the model of Python `int(...)`. -/
def digitsToNat (cs : List Char) : Option Nat :=
  if cs.isEmpty then none
  else if cs.all Char.isDigit then
    some (cs.foldl (fun acc c => acc * 10 + (c.toNat - 48)) 0)
  else none

/-- Model of Python `int(s)` on a string: an optional sign followed by a
nonempty run of decimal digits; anything else raises `ValueError`,
modelled as `none`. -/
def pyIntStr (s : String) : Option Int :=
  match s.data with
  | '-' :: rest => (digitsToNat rest).map (fun n => -(n : Int))
  | '+' :: rest => (digitsToNat rest).map (fun n => (n : Int))
  | cs => (digitsToNat cs).map (fun n => (n : Int))

/-- Model of Python `int(x)` as used on stored counts: integers pass
through, strings are parsed. -/
def pyInt : JVal → Option Int
  | .jint i => some i
  | .jstr s => pyIntStr s

/-- Model of Python `str.lower()`: lower-case every character (ASCII
folding, which covers the identifiers the engine compares). -/
def pyLower (s : String) : String :=
  ⟨s.data.map Char.toLower⟩

/-- Decide whether `pat` occurs as a contiguous substring of `hay`
(model of Python's `in` on strings, character lists). -/
def containsSub (hay pat : List Char) : Bool :=
  match hay with
  | [] => pat.isEmpty
  | _ :: t => pat.isPrefixOf hay || containsSub t pat

/-- Modelled from the spec: `util.pattern_match` lives in `src/utils.py`,
which is absent from the sources.  Per spec §4.1: fold the query and each
candidate field to lower case; the match succeeds if the folded query
equals any of name/iso2/iso3, or is a non-empty substring of the folded
name; the empty query never matches. -/
def pattern_match (query name iso2 iso3 : String) : Bool :=
  let q := pyLower query
  (!(q == "")) &&
    (q == pyLower name || q == pyLower iso2 || q == pyLower iso3 ||
      containsSub (pyLower name).data q.data)

/-- An entry of the `data.json` snapshot (whole-world current totals): a
dictionary with keys `country`, `iso2`, `iso3` (a missing key raises
`KeyError` on access, hence `Option`). -/
structure EntityA : Type where
  country : Option String
  iso2 : Option String
  iso3 : Option String
deriving DecidableEq, Repr

/-- An entry of a `csv_<type>.json` per-country history snapshot: keys
`iso2`, `iso3` and the per-date `history` mapping. -/
structure EntityH : Type where
  iso2 : Option String
  iso3 : Option String
  history : List (String × JVal)
deriving DecidableEq, Repr

/-- An entry of a `csv_<type>_region.json` or `csv_<type>_us_region.json`
snapshot: keys `iso2`, `iso3` and a `regions` mapping from region name to
an opaque region payload `α`. -/
structure EntityR (α : Type) : Type where
  iso2 : Option String
  iso3 : Option String
  regions : Option (List (String × α))
deriving DecidableEq, Repr

/-- The snapshot store behind `util.read_json`: each logical file name
maps to its decoded snapshot, `none` when loading fails (absent or
malformed file, including any `data_type` outside the three supported
ones).  `α` is the opaque region payload type. -/
structure Store (α : Type) : Type where
  dataJson : Option (List EntityA)
  csv : String → Option (List (String × EntityH))
  csvRegion : String → Option (List (String × EntityR α))
  csvUsRegion : String → Option (List (String × EntityR α))

/-- The Python exceptions that can escape a route body before the
`try/except` wrappers catch them. -/
inductive PyError : Type where
  | countryNotFound (msg : String)
  | regionNotFound (msg : String)
  | keyError (key : String)
  | valueError (msg : String)
  | fileNotFound (name : String)
deriving DecidableEq, Repr

/-- The message `f-string` used by every handler:
`type(e).__name__ : e`. -/
def errMessage : PyError → String
  | .countryNotFound m => "CountryNotFound : " ++ m
  | .regionNotFound m => "RegionNotFound : " ++ m
  | .keyError k => "KeyError : " ++ k
  | .valueError m => "ValueError : " ++ m
  | .fileNotFound n => "FileNotFoundError : " ++ n

/-- Modelled from the spec: the outcome type of a route body after
`util.response_error` (in the absent `src/utils.py`) is applied.  `ok` is
a jsonified payload, `notFound` is `response_error(..., status=404)`,
`error` is `response_error(...)` with the default 500 status. -/
inductive Result (α : Type) : Type where
  | ok (val : α)
  | notFound (msg : String)
  | error (msg : String)
deriving DecidableEq, Repr

/-- Dictionary key access `d[key]` on an optional field: raises
`KeyError` when the key is absent. -/
def getField (o : Option String) (key : String) : Except PyError String :=
  match o with
  | some s => .ok s
  | none => .error (.keyError key)

/-- The scan loop of `all_country` (app.py lines 89–96): walk `data.json`
entries in stored order, return the first entry matched by
`pattern_match` against `country`/`iso2`/`iso3`, else raise
`CountryNotFound`. -/
def all_country_body (data : List EntityA) (country : String) :
    Except PyError EntityA :=
  match data with
  | [] => .error (.countryNotFound "This region cannot be found. Please try again.")
  | r :: rest => do
    let n ← getField r.country "country"
    let i2 ← getField r.iso2 "iso2"
    let i3 ← getField r.iso3 "iso3"
    if pattern_match country n i2 i3 then
      return r
    else
      all_country_body rest country

/-- `all_country` (app.py lines 85–100): load `data.json`, run the scan,
map `CountryNotFound` to a 404 response and anything else to a 500
response. -/
def all_country (st : Store α) (country : String) : Result EntityA :=
  match st.dataJson with
  | none => .error (errMessage (.fileNotFound "data.json"))
  | some data =>
    match all_country_body data country with
    | .ok r => .ok r
    | .error (.countryNotFound m) => .notFound (errMessage (.countryNotFound m))
    | .error e => .error (errMessage e)

/-- The scan loop of `history_country` (app.py lines 114–121): walk the
`csv_<type>.json` mapping in insertion order, keys are country names. -/
def history_country_body (data : List (String × EntityH)) (country : String) :
    Except PyError EntityH :=
  match data with
  | [] => .error (.countryNotFound "This region cannot be found. Please try again.")
  | (name, e) :: rest => do
    let i2 ← getField e.iso2 "iso2"
    let i3 ← getField e.iso3 "iso3"
    if pattern_match country name i2 i3 then
      return e
    else
      history_country_body rest country

/-- `history_country` (app.py lines 110–125). -/
def history_country (st : Store α) (data_type country : String) : Result EntityH :=
  match st.csv data_type with
  | none => .error (errMessage (.fileNotFound ("csv_" ++ data_type ++ ".json")))
  | some data =>
    match history_country_body data country with
    | .ok e => .ok e
    | .error (.countryNotFound m) => .notFound (errMessage (.countryNotFound m))
    | .error e => .error (errMessage e)

/-- The inner region loop of `history_region` (app.py lines 140–142): scan
the `regions` dictionary keys and return the value of the first one whose
lower-cased name equals the lower-cased query. -/
def findRegion (regs : List (String × α)) (region_name : String) : Option α :=
  (regs.find? (fun p => pyLower p.1 == pyLower region_name)).map (fun p => p.2)

/-- The country scan of `history_region` (app.py lines 134–143): for every
country entry matched by `pattern_match`, look for an exactly
(case-insensitively) named region; if the whole scan finds none, raise
`RegionNotFound` — note that the source raises `RegionNotFound` even when
no country matched at all. -/
def history_region_scan (data : List (String × EntityR α))
    (country region_name : String) : Except PyError α :=
  match data with
  | [] => .error (.regionNotFound "This region cannot be found. Please try again.")
  | (name, e) :: rest => do
    let i2 ← getField e.iso2 "iso2"
    let i3 ← getField e.iso3 "iso3"
    if pattern_match country name i2 i3 then
      match e.regions with
      | none => .error (.keyError "regions")
      | some regs =>
        match findRegion regs region_name with
        | some v => return v
        | none => history_region_scan rest country region_name
    else
      history_region_scan rest country region_name

/-- The three spellings of the United States that select the US-specific
regional snapshot (app.py lines 130 and 152). -/
def usNames : List String := ["us", "united states", "usa"]

/-- `history_region` (app.py lines 127–147): select the US or generic
regional snapshot by the lower-cased country query, scan it, map
`RegionNotFound` to a 404 response and anything else to a 500 response. -/
def history_region (st : Store α) (data_type country region_name : String) :
    Result α :=
  let dataOpt :=
    if pyLower country ∈ usNames then st.csvUsRegion data_type
    else st.csvRegion data_type
  let fname :=
    if pyLower country ∈ usNames then "csv_" ++ data_type ++ "_us_region.json"
    else "csv_" ++ data_type ++ "_region.json"
  match dataOpt with
  | none => .error (errMessage (.fileNotFound fname))
  | some data =>
    match history_region_scan data country region_name with
    | .ok v => .ok v
    | .error (.regionNotFound m) => .notFound (errMessage (.regionNotFound m))
    | .error e => .error (errMessage e)

/-- The country scan of `history_region_all` (app.py lines 156–163):
return the whole `regions` mapping of the first matched country, raising
`CountryNotFound` when no country matches. -/
def history_region_all_scan (data : List (String × EntityR α))
    (country : String) : Except PyError (List (String × α)) :=
  match data with
  | [] => .error (.countryNotFound "This country cannot be found. Please try again.")
  | (name, e) :: rest => do
    let i2 ← getField e.iso2 "iso2"
    let i3 ← getField e.iso3 "iso3"
    if pattern_match country name i2 i3 then
      match e.regions with
      | none => .error (.keyError "regions")
      | some regs => return regs
    else
      history_region_all_scan rest country

/-- `history_region_all` (app.py lines 149–167). -/
def history_region_all (st : Store α) (data_type country : String) :
    Result (List (String × α)) :=
  let dataOpt :=
    if pyLower country ∈ usNames then st.csvUsRegion data_type
    else st.csvRegion data_type
  let fname :=
    if pyLower country ∈ usNames then "csv_" ++ data_type ++ "_us_region.json"
    else "csv_" ++ data_type ++ "_region.json"
  match dataOpt with
  | none => .error (errMessage (.fileNotFound fname))
  | some data =>
    match history_region_all_scan data country with
    | .ok regs => .ok regs
    | .error (.countryNotFound m) => .notFound (errMessage (.countryNotFound m))
    | .error e => .error (errMessage e)

/-- One step of the world aggregation (app.py lines 177–180): insert the
date on first sight, otherwise add into the existing entry.  The
accumulator models the dictionary `ret` in insertion order. -/
def addDate : List (String × Int) → String → Int → List (String × Int)
  | [], d, n => [(d, n)]
  | (k, v) :: rest, d, n =>
    if k == d then (k, v + n) :: rest
    else (k, v) :: addDate rest d n

/-- The per-date inner loop of `history_region_world` over a flat list of
raw date/count pairs: `int(...)` each count and accumulate, raising
`ValueError` on the first unparseable count. -/
def aggPairs (acc : List (String × Int)) :
    List (String × JVal) → Except PyError (List (String × Int))
  | [] => .ok acc
  | (d, v) :: rest =>
    match pyInt v with
    | none => .error (.valueError "invalid literal for int() with base 10")
    | some n => aggPairs (addDate acc d n) rest

/-- The entity loop of `history_region_world` (app.py lines 175–180):
process every entity's `history` in snapshot order. -/
def aggAll (acc : List (String × Int)) :
    List (String × EntityH) → Except PyError (List (String × Int))
  | [] => .ok acc
  | (_, e) :: rest =>
    match aggPairs acc e.history with
    | .ok acc2 => aggAll acc2 rest
    | .error er => .error er

/-- `history_region_world` (app.py lines 169–183): load
`csv_<type>.json`, sum every entity's per-date counts into one history
mapping; any exception (load failure, `ValueError` from `int`) becomes a
500 response. -/
def history_region_world (st : Store α) (data_type : String) :
    Result (List (String × Int)) :=
  match st.csv data_type with
  | none => .error (errMessage (.fileNotFound ("csv_" ++ data_type ++ ".json")))
  | some data =>
    match aggAll [] data with
    | .ok res => .ok res
    | .error e => .error (errMessage e)

/-- Modelled from the spec: the result cache is the external
`flask_caching` library, configured in `src/app.py` with
`CACHE_DEFAULT_TIMEOUT = 15 * 60` seconds.  Fixed TTL in seconds. -/
def TTL : Nat := 15 * 60

/-- Modelled from the spec: a memoization cache keyed by
(operation name, positional argument tuple), each entry holding the stored
response and its expiry timestamp. -/
structure CacheState (α : Type) : Type where
  entries : List ((String × List String) × α × Nat)

/-- Look up an entry (value and expiry) by key. -/
def cacheLookup (c : CacheState α) (k : String × List String) :
    Option (α × Nat) :=
  (c.entries.find? (fun e => e.1 == k)).map (fun e => e.2)

/-- Modelled from the spec: `getOrCompute` per spec §4.4.  On a hit with an
unexpired entry, return the stored response without invoking `compute`; on
a miss or an expired entry, invoke `compute`, store the outcome with
expiry `now + TTL`, and return it.  The third component reports whether
`compute` was invoked. -/
def getOrCompute (c : CacheState α) (k : String × List String) (now : Nat)
    (compute : Unit → α) : α × CacheState α × Bool :=
  match cacheLookup c k with
  | some (v, exp) =>
    if now < exp then (v, c, false)
    else
      let v2 := compute ()
      (v2, ⟨(k, v2, now + TTL) :: c.entries.filter (fun e => !(e.1 == k))⟩, true)
  | none =>
    let v2 := compute ()
    (v2, ⟨(k, v2, now + TTL) :: c.entries.filter (fun e => !(e.1 == k))⟩, true)

/-! ### Characterizing the country scans -/

/-- The matcher applied to a `data.json` entry with all fields present. -/
def matchA (c : String) (e : EntityA) : Bool :=
  pattern_match c (e.country.getD "") (e.iso2.getD "") (e.iso3.getD "")

/-- The matcher applied to a keyed history entry. -/
def matchH (c : String) (p : String × EntityH) : Bool :=
  pattern_match c p.1 (p.2.iso2.getD "") (p.2.iso3.getD "")

/-- The matcher applied to a keyed regional entry. -/
def matchR (c : String) (p : String × EntityR α) : Bool :=
  pattern_match c p.1 (p.2.iso2.getD "") (p.2.iso3.getD "")

theorem all_country_body_eq_find (data : List EntityA) (c : String)
    (h : ∀ e ∈ data, e.country.isSome ∧ e.iso2.isSome ∧ e.iso3.isSome) :
    all_country_body data c =
      match data.find? (matchA c) with
      | some e => .ok e
      | none => .error (.countryNotFound "This region cannot be found. Please try again.") := by
  induction data with
  | nil => rfl
  | cons e rest ih =>
    obtain ⟨hc, hi2, hi3⟩ := h e (List.mem_cons_self ..)
    obtain ⟨n, hn⟩ := Option.isSome_iff_exists.mp hc
    obtain ⟨i2, h2⟩ := Option.isSome_iff_exists.mp hi2
    obtain ⟨i3, h3⟩ := Option.isSome_iff_exists.mp hi3
    have hrest := fun x hx => h x (List.mem_cons_of_mem _ hx)
    have hm : matchA c e = pattern_match c n i2 i3 := by
      simp [matchA, hn, h2, h3]
    cases hp : pattern_match c n i2 i3 with
    | true =>
      rw [List.find?_cons_of_pos _ (by rw [hm, hp])]
      simp [all_country_body, getField, hn, h2, h3, hp, Bind.bind, Except.bind,
        Pure.pure, Except.pure]
    | false =>
      rw [List.find?_cons_of_neg _ (by rw [hm, hp]; exact Bool.false_ne_true)]
      rw [← ih hrest]
      simp [all_country_body, getField, hn, h2, h3, hp, Bind.bind, Except.bind]

theorem history_country_body_eq_find (data : List (String × EntityH)) (c : String)
    (h : ∀ p ∈ data, p.2.iso2.isSome ∧ p.2.iso3.isSome) :
    history_country_body data c =
      match data.find? (matchH c) with
      | some p => .ok p.2
      | none => .error (.countryNotFound "This region cannot be found. Please try again.") := by
  induction data with
  | nil => rfl
  | cons p rest ih =>
    obtain ⟨hi2, hi3⟩ := h p (List.mem_cons_self ..)
    obtain ⟨i2, h2⟩ := Option.isSome_iff_exists.mp hi2
    obtain ⟨i3, h3⟩ := Option.isSome_iff_exists.mp hi3
    have hrest := fun x hx => h x (List.mem_cons_of_mem _ hx)
    have hm : matchH c p = pattern_match c p.1 i2 i3 := by
      simp [matchH, h2, h3]
    cases hp : pattern_match c p.1 i2 i3 with
    | true =>
      rw [List.find?_cons_of_pos _ (by rw [hm, hp])]
      simp [history_country_body, getField, h2, h3, hp, Bind.bind, Except.bind,
        Pure.pure, Except.pure]
    | false =>
      rw [List.find?_cons_of_neg _ (by rw [hm, hp]; exact Bool.false_ne_true)]
      rw [← ih hrest]
      simp [history_country_body, getField, h2, h3, hp, Bind.bind, Except.bind]

theorem history_region_scan_notfound (data : List (String × EntityR α)) (c rn : String)
    (h : ∀ p ∈ data, p.2.iso2.isSome ∧ p.2.iso3.isSome ∧
      (matchR c p = true → ∃ regs, p.2.regions = some regs ∧ findRegion regs rn = none)) :
    history_region_scan data c rn =
      .error (.regionNotFound "This region cannot be found. Please try again.") := by
  induction data with
  | nil => rfl
  | cons p rest ih =>
    obtain ⟨hi2, hi3, hregs⟩ := h p (List.mem_cons_self ..)
    obtain ⟨i2, h2⟩ := Option.isSome_iff_exists.mp hi2
    obtain ⟨i3, h3⟩ := Option.isSome_iff_exists.mp hi3
    have hrest := fun x hx => h x (List.mem_cons_of_mem _ hx)
    cases hp : pattern_match c p.1 i2 i3 with
    | true =>
      have hm : matchR c p = true := by simp [matchR, h2, h3, hp]
      obtain ⟨regs, hr, hf⟩ := hregs hm
      simp [history_region_scan, getField, h2, h3, hp, hr, hf, Bind.bind,
        Except.bind, ih hrest]
    | false =>
      simp [history_region_scan, getField, h2, h3, hp, Bind.bind, Except.bind,
        ih hrest]

theorem all_country_body_keyerror (pre : List EntityA) (e0 : EntityA)
    (post : List EntityA) (c : String)
    (hpre : ∀ x ∈ pre, x.country.isSome ∧ x.iso2.isSome ∧ x.iso3.isSome ∧
      matchA c x = false)
    (hc : e0.country.isSome)
    (hbad : e0.iso2 = none ∨ (e0.iso2.isSome ∧ e0.iso3 = none)) :
    all_country_body (pre ++ e0 :: post) c =
      .error (.keyError (if e0.iso2 = none then "iso2" else "iso3")) := by
  induction pre with
  | nil =>
    obtain ⟨n, hn⟩ := Option.isSome_iff_exists.mp hc
    rcases hbad with h2 | ⟨hi2, h3⟩
    · simp [all_country_body, getField, hn, h2, Bind.bind, Except.bind]
    · obtain ⟨i2, h2⟩ := Option.isSome_iff_exists.mp hi2
      simp [all_country_body, getField, hn, h2, h3, Bind.bind, Except.bind]
  | cons x rest ih =>
    obtain ⟨hxc, hx2, hx3, hxm⟩ := hpre x (List.mem_cons_self ..)
    obtain ⟨n, hn⟩ := Option.isSome_iff_exists.mp hxc
    obtain ⟨i2, hi2⟩ := Option.isSome_iff_exists.mp hx2
    obtain ⟨i3, hi3⟩ := Option.isSome_iff_exists.mp hx3
    have hp : pattern_match c n i2 i3 = false := by
      rw [← hxm]; simp [matchA, hn, hi2, hi3]
    have hrest := fun y hy => hpre y (List.mem_cons_of_mem _ hy)
    simpa [all_country_body, getField, hn, hi2, hi3, hp, Bind.bind, Except.bind]
      using ih hrest

theorem history_country_body_keyerror (pre : List (String × EntityH))
    (p0 : String × EntityH) (post : List (String × EntityH)) (c : String)
    (hpre : ∀ x ∈ pre, x.2.iso2.isSome ∧ x.2.iso3.isSome ∧ matchH c x = false)
    (hbad : p0.2.iso2 = none ∨ (p0.2.iso2.isSome ∧ p0.2.iso3 = none)) :
    history_country_body (pre ++ p0 :: post) c =
      .error (.keyError (if p0.2.iso2 = none then "iso2" else "iso3")) := by
  induction pre with
  | nil =>
    rcases hbad with h2 | ⟨hi2, h3⟩
    · simp [history_country_body, getField, h2, Bind.bind, Except.bind]
    · obtain ⟨i2, h2⟩ := Option.isSome_iff_exists.mp hi2
      simp [history_country_body, getField, h2, h3, Bind.bind, Except.bind]
  | cons x rest ih =>
    obtain ⟨hx2, hx3, hxm⟩ := hpre x (List.mem_cons_self ..)
    obtain ⟨i2, hi2⟩ := Option.isSome_iff_exists.mp hx2
    obtain ⟨i3, hi3⟩ := Option.isSome_iff_exists.mp hx3
    have hp : pattern_match c x.1 i2 i3 = false := by
      rw [← hxm]; simp [matchH, hi2, hi3]
    have hrest := fun y hy => hpre y (List.mem_cons_of_mem _ hy)
    simpa [history_country_body, getField, hi2, hi3, hp, Bind.bind, Except.bind]
      using ih hrest

/-! ### Specifying the world aggregation -/

/-- Dictionary lookup in the accumulator: value of the first entry with the
given date key. -/
def lookupA (l : List (String × Int)) (d : String) : Option Int :=
  (l.find? (fun p => p.1 == d)).map (fun p => p.2)

/-- Keys of the accumulator, in insertion order. -/
def keysOf (l : List (String × Int)) : List String :=
  l.map Prod.fst

/-- Combine an old accumulator value with a new contribution. -/
def mergeOpt : Option Int → Option Int → Option Int
  | none, b => b
  | some a, none => some a
  | some a, some b => some (a + b)

/-- All values stored under one date key. -/
def keyEntries (qs : List (String × Int)) (d : String) : List Int :=
  (qs.filter (fun p => p.1 == d)).map (fun p => p.2)

/-- The total contribution of a pair list to one date, `none` when the date
never occurs. -/
def sumKey (qs : List (String × Int)) (d : String) : Option Int :=
  if keyEntries qs d = [] then none else some (keyEntries qs d).sum

/-- The pure accumulation underlying `aggPairs` once every count has been
parsed. -/
def accPure (acc : List (String × Int)) (qs : List (String × Int)) :
    List (String × Int) :=
  qs.foldl (fun a p => addDate a p.1 p.2) acc

/-- Parse every count of a raw pair list (total, defaulting to `0`; only
used under the hypothesis that every count parses). -/
def parsedPairs (ps : List (String × JVal)) : List (String × Int) :=
  ps.map (fun p => (p.1, (pyInt p.2).getD 0))

/-- All raw date/count pairs of a snapshot, in iteration order. -/
def flattenHist : List (String × EntityH) → List (String × JVal)
  | [] => []
  | ce :: rest => ce.2.history ++ flattenHist rest

/-- Every date key occurring in some entity of a snapshot. -/
def allDates (data : List (String × EntityH)) : List String :=
  (flattenHist data).map Prod.fst

/-- One entity's total (parsed) contribution to one date. -/
def entityContrib (e : EntityH) (d : String) : Int :=
  (keyEntries (parsedPairs e.history) d).sum

theorem lookupA_cons (k : String) (v : Int) (rest : List (String × Int))
    (d : String) :
    lookupA ((k, v) :: rest) d = if k = d then some v else lookupA rest d := by
  by_cases h : k = d
  · rw [if_pos h]
    unfold lookupA
    rw [List.find?_cons_of_pos _ (by simp [h])]
    rfl
  · rw [if_neg h]
    unfold lookupA
    rw [List.find?_cons_of_neg _ (by simp [h])]

theorem addDate_cons (k : String) (v : Int) (rest : List (String × Int))
    (d : String) (n : Int) :
    addDate ((k, v) :: rest) d n =
      if k = d then (k, v + n) :: rest else (k, v) :: addDate rest d n := by
  by_cases h : k = d <;> simp [addDate, h]

theorem keysOf_cons (p : String × Int) (l : List (String × Int)) :
    keysOf (p :: l) = p.1 :: keysOf l := rfl

theorem lookupA_addDate (l : List (String × Int)) (d : String) (n : Int)
    (d' : String) :
    lookupA (addDate l d n) d' =
      if d' = d then some ((lookupA l d).getD 0 + n) else lookupA l d' := by
  induction l with
  | nil =>
    by_cases h : d' = d
    · subst h
      show lookupA [(d', n)] d' = _
      rw [lookupA_cons, if_pos rfl, if_pos rfl]
      simp [lookupA]
    · show lookupA [(d, n)] d' = _
      rw [lookupA_cons, if_neg (fun he => h he.symm), if_neg h]
  | cons p rest ih =>
    obtain ⟨k, v⟩ := p
    rw [addDate_cons]
    by_cases hkd : k = d
    · subst hkd
      rw [if_pos rfl]
      simp only [lookupA_cons]
      by_cases h : d' = k
      · simp [h]
      · have h2 : ¬ k = d' := fun he => h he.symm
        simp [if_neg h, if_neg h2]
    · rw [if_neg hkd]
      simp only [lookupA_cons]
      by_cases h : d' = d
      · subst h
        simp [if_neg hkd, ih]
      · by_cases h3 : k = d'
        · simp [if_pos h3, if_neg h]
        · simp [if_neg h3, if_neg h, ih]

theorem keysOf_addDate_of_mem (l : List (String × Int)) (d : String) (n : Int)
    (h : d ∈ keysOf l) : keysOf (addDate l d n) = keysOf l := by
  induction l with
  | nil => simp [keysOf] at h
  | cons p rest ih =>
    obtain ⟨k, v⟩ := p
    rw [addDate_cons]
    by_cases hkd : k = d
    · rw [if_pos hkd]; rfl
    · rw [if_neg hkd, keysOf_cons, keysOf_cons]
      have hd : d ∈ keysOf rest := by
        rw [keysOf_cons] at h
        rcases List.mem_cons.mp h with h1 | h1
        · exact absurd h1.symm hkd
        · exact h1
      rw [ih hd]

theorem keysOf_addDate_of_not_mem (l : List (String × Int)) (d : String)
    (n : Int) (h : d ∉ keysOf l) : keysOf (addDate l d n) = keysOf l ++ [d] := by
  induction l with
  | nil => rfl
  | cons p rest ih =>
    obtain ⟨k, v⟩ := p
    rw [addDate_cons]
    have hkd : ¬ k = d := by
      intro he; exact h (by rw [keysOf_cons]; exact he ▸ List.mem_cons_self ..)
    have hd : d ∉ keysOf rest := by
      intro hm; exact h (by rw [keysOf_cons]; exact List.mem_cons_of_mem _ hm)
    rw [if_neg hkd, keysOf_cons, keysOf_cons, ih hd]
    rfl

theorem nodup_keysOf_addDate (l : List (String × Int)) (d : String) (n : Int)
    (h : (keysOf l).Nodup) : (keysOf (addDate l d n)).Nodup := by
  by_cases hm : d ∈ keysOf l
  · rw [keysOf_addDate_of_mem l d n hm]; exact h
  · rw [keysOf_addDate_of_not_mem l d n hm]
    rw [List.nodup_append]
    refine ⟨h, List.nodup_singleton d, ?_⟩
    intro a ha he
    rw [List.mem_singleton] at he
    exact hm (he ▸ ha)

theorem mergeOpt_none_right (a : Option Int) : mergeOpt a none = a := by
  cases a <;> rfl

theorem keyEntries_cons (k : String) (v : Int) (qs : List (String × Int))
    (d : String) :
    keyEntries ((k, v) :: qs) d =
      if k = d then v :: keyEntries qs d else keyEntries qs d := by
  by_cases h : k = d <;> simp [keyEntries, h]

theorem sumKey_nil (d : String) : sumKey [] d = none := rfl

theorem accPure_cons (acc : List (String × Int)) (k : String) (v : Int)
    (qs : List (String × Int)) :
    accPure acc ((k, v) :: qs) = accPure (addDate acc k v) qs := rfl

theorem lookupA_accPure (qs : List (String × Int)) (acc : List (String × Int))
    (d : String) :
    lookupA (accPure acc qs) d = mergeOpt (lookupA acc d) (sumKey qs d) := by
  induction qs generalizing acc with
  | nil => rw [sumKey_nil, mergeOpt_none_right]; rfl
  | cons p qs ih =>
    obtain ⟨k, v⟩ := p
    rw [accPure_cons, ih, lookupA_addDate]
    by_cases h : d = k
    · subst h
      rw [if_pos rfl]
      have hsk : sumKey ((d, v) :: qs) d = some (v + (keyEntries qs d).sum) := by
        rw [sumKey, keyEntries_cons, if_pos rfl, if_neg (by simp), List.sum_cons]
      rw [hsk, sumKey]
      by_cases hk : keyEntries qs d = []
      · rw [if_pos hk, hk]
        rcases hl : lookupA acc d with _ | a <;> simp [mergeOpt, hl]
      · rw [if_neg hk]
        rcases hl : lookupA acc d with _ | a <;>
          simp [mergeOpt, hl, add_assoc]
    · have hks : ¬ k = d := fun he => h he.symm
      have hsk : sumKey ((k, v) :: qs) d = sumKey qs d := by
        rw [sumKey, sumKey, keyEntries_cons, if_neg hks]
      rw [if_neg h, hsk]

theorem nodup_keysOf_accPure (qs : List (String × Int))
    (acc : List (String × Int)) (h : (keysOf acc).Nodup) :
    (keysOf (accPure acc qs)).Nodup := by
  induction qs generalizing acc with
  | nil => exact h
  | cons p qs ih =>
    obtain ⟨k, v⟩ := p
    rw [accPure_cons]
    exact ih _ (nodup_keysOf_addDate _ _ _ h)

theorem aggPairs_ok (ps : List (String × JVal)) (acc : List (String × Int))
    (h : ∀ p ∈ ps, (pyInt p.2).isSome) :
    aggPairs acc ps = .ok (accPure acc (parsedPairs ps)) := by
  induction ps generalizing acc with
  | nil => rfl
  | cons p ps ih =>
    obtain ⟨d, v⟩ := p
    obtain ⟨n, hn⟩ :=
      Option.isSome_iff_exists.mp (h (d, v) (List.mem_cons_self ..))
    have hrest := fun x hx => h x (List.mem_cons_of_mem _ hx)
    simp [aggPairs, hn, parsedPairs, accPure, ih _ hrest]

theorem aggPairs_error (ps : List (String × JVal)) (acc : List (String × Int))
    (h : ∃ p ∈ ps, pyInt p.2 = none) :
    ∃ m, aggPairs acc ps = .error m := by
  induction ps generalizing acc with
  | nil => simp at h
  | cons p ps ih =>
    obtain ⟨d, v⟩ := p
    rcases hv : pyInt v with _ | n
    · exact ⟨PyError.valueError "invalid literal for int() with base 10",
        by simp [aggPairs, hv]⟩
    · have hex : ∃ p ∈ ps, pyInt p.2 = none := by
        rcases h with ⟨q, hq, hqn⟩
        rcases List.mem_cons.mp hq with rfl | hq2
        · rw [hqn] at hv; cases hv
        · exact ⟨q, hq2, hqn⟩
      simpa [aggPairs, hv] using ih _ hex

theorem aggPairs_append (ps qs : List (String × JVal))
    (acc : List (String × Int)) :
    aggPairs acc (ps ++ qs) =
      match aggPairs acc ps with
      | .ok a => aggPairs a qs
      | .error e => .error e := by
  induction ps generalizing acc with
  | nil => rfl
  | cons p ps ih =>
    obtain ⟨d, v⟩ := p
    rcases hv : pyInt v with _ | n <;> simp [aggPairs, hv, ih]

theorem aggAll_eq_flatten (data : List (String × EntityH))
    (acc : List (String × Int)) :
    aggAll acc data = aggPairs acc (flattenHist data) := by
  induction data generalizing acc with
  | nil => rfl
  | cons ce rest ih =>
    obtain ⟨cn, e⟩ := ce
    rw [flattenHist, aggPairs_append]
    rcases h : aggPairs acc e.history with er | a
    · simp [aggAll, h]
    · simp [aggAll, h, ih]

theorem keyEntries_append (qs rs : List (String × Int)) (d : String) :
    keyEntries (qs ++ rs) d = keyEntries qs d ++ keyEntries rs d := by
  simp [keyEntries, List.filter_append]

theorem parsedPairs_append (ps qs : List (String × JVal)) :
    parsedPairs (ps ++ qs) = parsedPairs ps ++ parsedPairs qs := by
  simp [parsedPairs]

theorem keyEntries_parsed_flatten_sum (data : List (String × EntityH))
    (d : String) :
    (keyEntries (parsedPairs (flattenHist data)) d).sum =
      (data.map (fun ce => entityContrib ce.2 d)).sum := by
  induction data with
  | nil => rfl
  | cons ce rest ih =>
    rw [flattenHist, parsedPairs_append, keyEntries_append, List.sum_append,
      List.map_cons, List.sum_cons, ih, entityContrib]

theorem keyEntries_parsed_eq_nil_iff (l : List (String × JVal)) (d : String) :
    keyEntries (parsedPairs l) d = [] ↔ d ∉ l.map Prod.fst := by
  rw [keyEntries, List.map_eq_nil_iff, List.filter_eq_nil_iff]
  constructor
  · intro h hm
    rcases List.mem_map.mp hm with ⟨p, hp, hpd⟩
    exact h (p.1, (pyInt p.2).getD 0)
      (List.mem_map_of_mem _ hp) (by simp [hpd])
  · intro h q hq
    rcases List.mem_map.mp hq with ⟨p, hp, hpq⟩
    simp only [beq_iff_eq]
    intro he
    rw [← hpq] at he
    exact h (List.mem_map.mpr ⟨p, hp, he⟩)

theorem sumKey_parsed_flatten (data : List (String × EntityH)) (d : String) :
    sumKey (parsedPairs (flattenHist data)) d =
      if d ∈ allDates data then
        some ((data.map (fun ce => entityContrib ce.2 d)).sum)
      else none := by
  rw [sumKey]
  by_cases h : d ∈ allDates data
  · rw [if_pos h, if_neg, keyEntries_parsed_flatten_sum]
    intro he
    exact (keyEntries_parsed_eq_nil_iff _ _).mp he h
  · rw [if_neg h, if_pos ((keyEntries_parsed_eq_nil_iff _ _).mpr h)]

theorem sumKey_perm (qs qs' : List (String × Int)) (h : qs.Perm qs')
    (d : String) : sumKey qs d = sumKey qs' d := by
  have hk : (keyEntries qs d).Perm (keyEntries qs' d) :=
    (h.filter _).map _
  rw [sumKey, sumKey]
  by_cases he : keyEntries qs d = []
  · have he2 : keyEntries qs' d = [] := by
      have hl := hk.length_eq
      rw [he] at hl
      exact List.eq_nil_of_length_eq_zero hl.symm
    rw [if_pos he, if_pos he2]
  · have he2 : keyEntries qs' d ≠ [] := by
      intro h2
      have hl := hk.length_eq
      rw [h2] at hl
      exact he (List.eq_nil_of_length_eq_zero hl)
    rw [if_neg he, if_neg he2, hk.sum_eq]

theorem flattenHist_perm (data data' : List (String × EntityH))
    (h : data.Perm data') : (flattenHist data).Perm (flattenHist data') := by
  induction h with
  | nil => exact List.Perm.refl _
  | cons x h ih =>
    rw [flattenHist, flattenHist]
    exact ih.append_left _
  | swap x y l =>
    rw [flattenHist, flattenHist, flattenHist, flattenHist,
      ← List.append_assoc, ← List.append_assoc]
    exact List.perm_append_comm.append_right _
  | trans h1 h2 ih1 ih2 => exact ih1.trans ih2

/-! ### Claim theorems -/

/-- C9: the matcher succeeds exactly when the case-folded query equals the
case-folded name, iso2 or iso3, or is a non-empty substring of the
case-folded name; the empty query never matches, and iso2/iso3 occur only
in the equality disjuncts, never by substring. -/
theorem matcher_characterization (q n i2 i3 : String) :
    (pattern_match q n i2 i3 = true ↔
      (pyLower q ≠ "" ∧ (pyLower q = pyLower n ∨ pyLower q = pyLower i2 ∨
        pyLower q = pyLower i3 ∨
        containsSub (pyLower n).data (pyLower q).data = true))) ∧
    pattern_match "" n i2 i3 = false := by
  constructor
  · simp only [pattern_match, Bool.and_eq_true, Bool.not_eq_true',
      Bool.or_eq_true, beq_iff_eq, beq_eq_false_iff_ne, ne_eq]
    tauto
  · have h0 : pyLower "" = "" := rfl
    simp [pattern_match, h0]

/-- C3: `all_country` and `history_country` scan the snapshot's entities
in stored order and return the first entity on which the matcher
succeeds; when no entity matches they return the 404 `CountryNotFound`
response.  The first-match rule makes multi-candidate substring queries
deterministic. -/
theorem resolveCountry_first_match (α : Type) (st : Store α) (dt c : String)
    (dataA : List EntityA) (dataH : List (String × EntityH))
    (hAload : st.dataJson = some dataA)
    (hHload : st.csv dt = some dataH)
    (hfA : ∀ e ∈ dataA, e.country.isSome ∧ e.iso2.isSome ∧ e.iso3.isSome)
    (hfH : ∀ p ∈ dataH, p.2.iso2.isSome ∧ p.2.iso3.isSome) :
    (all_country st c =
      match dataA.find? (matchA c) with
      | some e => Result.ok e
      | none => Result.notFound
          (errMessage (.countryNotFound "This region cannot be found. Please try again."))) ∧
    (history_country st dt c =
      match dataH.find? (matchH c) with
      | some p => Result.ok p.2
      | none => Result.notFound
          (errMessage (.countryNotFound "This region cannot be found. Please try again."))) := by
  constructor
  · unfold all_country
    rw [hAload]
    dsimp only
    rw [all_country_body_eq_find dataA c hfA]
    rcases h : dataA.find? (matchA c) with _ | e <;> simp [h]
  · unfold history_country
    rw [hHload]
    dsimp only
    rw [history_country_body_eq_find dataH c hfH]
    rcases h : dataH.find? (matchH c) with _ | p <;> simp [h]

/-- Concrete snapshots for the C3 witness: two entities both contain the
substring "fran", the scan must return the first. -/
def dataA3 : List EntityA :=
  [⟨some "France", some "FR", some "FRA"⟩,
   ⟨some "Frankonia", some "FK", some "FKA"⟩]

/-- Keyed variant of the C3 witness snapshot. -/
def dataH3 : List (String × EntityH) :=
  [("France", ⟨some "FR", some "FRA", []⟩),
   ("Frankonia", ⟨some "FK", some "FKA", []⟩)]

/-- Store for the C3 witness. -/
def storeC3 : Store Unit :=
  { dataJson := some dataA3
    csv := fun dt => if dt = "confirmed" then some dataH3 else none
    csvRegion := fun _ => none
    csvUsRegion := fun _ => none }

/-- C3 witness: the ambiguous substring query "fran" deterministically
returns the first entity in snapshot order. -/
theorem resolveCountry_first_match_witness :
    all_country storeC3 "fran" = Result.ok ⟨some "France", some "FR", some "FRA"⟩ ∧
    history_country storeC3 "confirmed" "fran" =
      Result.ok ⟨some "FR", some "FRA", []⟩ := by
  have h := resolveCountry_first_match Unit storeC3 "confirmed" "fran"
    dataA3 dataH3 (by decide) (by decide) (by decide) (by decide)
  exact ⟨h.1.trans (by decide), h.2.trans (by decide)⟩

/-- C4: inside `history_region`, a stored region matches the region query
exactly when the two names are equal under case folding — never by proper
substring. -/
theorem region_match_iff_casefold (α : Type) (regs : List (String × α))
    (rn : String) :
    (findRegion regs rn).isSome ↔ ∃ p ∈ regs, pyLower p.1 = pyLower rn := by
  simp [findRegion, List.find?_isSome, beq_iff_eq]

/-- C5: `history_region` and `history_region_all` read the US-specific
regional snapshot exactly when the lower-cased country query is "us",
"united states" or "usa", and the generic regional snapshot otherwise:
each operation's outcome depends only on the selected snapshot. -/
theorem regional_snapshot_selection (α : Type) (st1 st2 : Store α)
    (dt c rn : String) :
    (pyLower c ∈ usNames ↔
      (pyLower c = "us" ∨ pyLower c = "united states" ∨ pyLower c = "usa")) ∧
    (pyLower c ∈ usNames →
      st1.csvUsRegion dt = st2.csvUsRegion dt →
      history_region st1 dt c rn = history_region st2 dt c rn ∧
      history_region_all st1 dt c = history_region_all st2 dt c) ∧
    (pyLower c ∉ usNames →
      st1.csvRegion dt = st2.csvRegion dt →
      history_region st1 dt c rn = history_region st2 dt c rn ∧
      history_region_all st1 dt c = history_region_all st2 dt c) := by
  refine ⟨by simp [usNames], ?_, ?_⟩
  · intro h he
    constructor <;> simp [history_region, history_region_all, h, he]
  · intro h he
    constructor <;> simp [history_region, history_region_all, h, he]

/-- First store for the C5 witness: both regional snapshots present. -/
def storeC5a : Store Unit :=
  { dataJson := none
    csv := fun _ => none
    csvRegion := fun _ =>
      some [("France", ⟨some "FR", some "FRA", some [("Paris", ())]⟩)]
    csvUsRegion := fun _ =>
      some [("US", ⟨some "US", some "USA", some [("California", ())]⟩)] }

/-- Second store for the C5 witness: generic regional snapshot removed,
US-specific snapshot identical to `storeC5a`. -/
def storeC5b : Store Unit :=
  { dataJson := none
    csv := fun _ => none
    csvRegion := fun _ => none
    csvUsRegion := fun _ =>
      some [("US", ⟨some "US", some "USA", some [("California", ())]⟩)] }

/-- Third store for the C5 witness: US-specific snapshot removed, generic
snapshot identical to `storeC5a`. -/
def storeC5c : Store Unit :=
  { dataJson := none
    csv := fun _ => none
    csvRegion := fun _ =>
      some [("France", ⟨some "FR", some "FRA", some [("Paris", ())]⟩)]
    csvUsRegion := fun _ => none }

/-- C5 witness: a "USA" query ignores the generic snapshot, a "France"
query ignores the US-specific snapshot. -/
theorem regional_snapshot_selection_witness :
    (history_region storeC5a "confirmed" "USA" "California" =
       history_region storeC5b "confirmed" "USA" "California" ∧
     history_region_all storeC5a "confirmed" "USA" =
       history_region_all storeC5b "confirmed" "USA") ∧
    (history_region storeC5a "confirmed" "France" "Paris" =
       history_region storeC5c "confirmed" "France" "Paris" ∧
     history_region_all storeC5a "confirmed" "France" =
       history_region_all storeC5c "confirmed" "France") := by
  constructor
  · exact (regional_snapshot_selection Unit storeC5a storeC5b "confirmed"
      "USA" "California").2.1 (by decide) rfl
  · exact (regional_snapshot_selection Unit storeC5a storeC5c "confirmed"
      "France" "Paris").2.2 (by decide) rfl

/-- C1 (amended): `history_region` answers with the 404 `RegionNotFound`
response whenever no matched country entry contains an exactly-matching
region — in particular also when the country itself does not resolve; it
never produces `CountryNotFound` (the source's fall-through loop raises
`RegionNotFound` in both situations). -/
theorem history_region_region_notfound (α : Type) (st : Store α)
    (dt c rn : String) (data : List (String × EntityR α))
    (hload : (if pyLower c ∈ usNames then st.csvUsRegion dt
      else st.csvRegion dt) = some data)
    (h : ∀ p ∈ data, p.2.iso2.isSome ∧ p.2.iso3.isSome ∧
      (matchR c p = true → ∃ regs, p.2.regions = some regs ∧
        findRegion regs rn = none)) :
    history_region st dt c rn =
      Result.notFound
        "RegionNotFound : This region cannot be found. Please try again." := by
  unfold history_region
  rw [hload]
  dsimp only
  rw [history_region_scan_notfound data c rn h]
  rfl

/-- Store for the C1 counterexample and witness: one country "France"
with a single region "Paris". -/
def storeC1 : Store Unit :=
  { dataJson := none
    csv := fun _ => none
    csvRegion := fun dt =>
      if dt = "confirmed" then
        some [("France", ⟨some "FR", some "FRA", some [("Paris", ())]⟩)]
      else none
    csvUsRegion := fun _ => none }

/-- C1 counterexample: the country query "Germany" does not resolve
against `storeC1`, yet `history_region` answers with the `RegionNotFound`
404 response — not with `CountryNotFound` as the claim states. -/
theorem history_region_counterexample_c1 :
    history_region storeC1 "confirmed" "Germany" "Paris" =
      Result.notFound
        "RegionNotFound : This region cannot be found. Please try again." ∧
    history_region storeC1 "confirmed" "Germany" "Paris" ≠
      Result.notFound
        "CountryNotFound : This country cannot be found. Please try again." := by
  constructor
  · decide
  · decide

/-- C1 witness: the amended statement applied to `storeC1`, once with an
unresolvable country ("Germany") and once with a resolving country whose
regions lack the query ("France" / "Calif"). -/
theorem history_region_region_notfound_witness :
    history_region storeC1 "confirmed" "Germany" "Paris" =
      Result.notFound
        "RegionNotFound : This region cannot be found. Please try again." ∧
    history_region storeC1 "confirmed" "France" "Calif" =
      Result.notFound
        "RegionNotFound : This region cannot be found. Please try again." := by
  constructor
  · refine history_region_region_notfound Unit storeC1 "confirmed" "Germany"
      "Paris" [("France", ⟨some "FR", some "FRA", some [("Paris", ())]⟩)]
      (by decide) ?_
    intro p hp
    have hp2 : p = ("France", ⟨some "FR", some "FRA", some [("Paris", ())]⟩) := by
      simpa using hp
    subst hp2
    exact ⟨by decide, by decide, fun hm => absurd hm (by decide)⟩
  · refine history_region_region_notfound Unit storeC1 "confirmed" "France"
      "Calif" [("France", ⟨some "FR", some "FRA", some [("Paris", ())]⟩)]
      (by decide) ?_
    intro p hp
    have hp2 : p = ("France", ⟨some "FR", some "FRA", some [("Paris", ())]⟩) := by
      simpa using hp
    subst hp2
    exact ⟨by decide, by decide, fun _ => ⟨[("Paris", ())], rfl, by decide⟩⟩

/-- C10: when the country scan reaches an entity that lacks an `iso2` or
`iso3` key before any match is found, the operation returns the 500-style
response naming the raised `KeyError` — not a 404 `CountryNotFound` — even
when a later entity in the snapshot would have matched the query (the
conclusion holds for every suffix `post`/`postH`). -/
theorem scan_keyerror_before_match (α : Type) (st stH : Store α)
    (c dt : String)
    (pre : List EntityA) (e0 : EntityA) (post : List EntityA)
    (preH : List (String × EntityH)) (p0 : String × EntityH)
    (postH : List (String × EntityH))
    (hAload : st.dataJson = some (pre ++ e0 :: post))
    (hpre : ∀ x ∈ pre, x.country.isSome ∧ x.iso2.isSome ∧ x.iso3.isSome ∧
      matchA c x = false)
    (hc : e0.country.isSome)
    (hbad : e0.iso2 = none ∨ (e0.iso2.isSome ∧ e0.iso3 = none))
    (hHload : stH.csv dt = some (preH ++ p0 :: postH))
    (hpreH : ∀ x ∈ preH, x.2.iso2.isSome ∧ x.2.iso3.isSome ∧
      matchH c x = false)
    (hbadH : p0.2.iso2 = none ∨ (p0.2.iso2.isSome ∧ p0.2.iso3 = none)) :
    all_country st c =
      Result.error
        (errMessage (.keyError (if e0.iso2 = none then "iso2" else "iso3"))) ∧
    history_country stH dt c =
      Result.error
        (errMessage (.keyError (if p0.2.iso2 = none then "iso2" else "iso3"))) := by
  constructor
  · unfold all_country
    rw [hAload]
    dsimp only
    rw [all_country_body_keyerror pre e0 post c hpre hc hbad]
  · unfold history_country
    rw [hHload]
    dsimp only
    rw [history_country_body_keyerror preH p0 postH c hpreH hbadH]

/-- Flat snapshot for the C10 witness: a non-matching well-formed entity,
then an entity missing `iso2`, then an entity that would match "france". -/
def dataC10A : List EntityA :=
  [⟨some "Germany", some "DE", some "DEU"⟩,
   ⟨some "Spain", none, some "ESP"⟩,
   ⟨some "France", some "FR", some "FRA"⟩]

/-- Keyed snapshot for the C10 witness, same shape. -/
def dataC10H : List (String × EntityH) :=
  [("Germany", ⟨some "DE", some "DEU", []⟩),
   ("Spain", ⟨none, some "ESP", []⟩),
   ("France", ⟨some "FR", some "FRA", []⟩)]

/-- Store for the C10 witness. -/
def storeC10 : Store Unit :=
  { dataJson := some dataC10A
    csv := fun dt => if dt = "confirmed" then some dataC10H else none
    csvRegion := fun _ => none
    csvUsRegion := fun _ => none }

/-- C10 witness: the broken "Spain" entry is hit before the matching
"France" entry, so the query "france" yields the 500 `KeyError` response
even though a later entity matches. -/
theorem scan_keyerror_before_match_witness :
    all_country storeC10 "france" =
      Result.error (errMessage (.keyError "iso2")) ∧
    history_country storeC10 "confirmed" "france" =
      Result.error (errMessage (.keyError "iso2")) ∧
    matchA "france" ⟨some "France", some "FR", some "FRA"⟩ = true := by
  have h := scan_keyerror_before_match Unit storeC10 storeC10 "france"
    "confirmed"
    [⟨some "Germany", some "DE", some "DEU"⟩] ⟨some "Spain", none, some "ESP"⟩
    [⟨some "France", some "FR", some "FRA"⟩]
    [("Germany", ⟨some "DE", some "DEU", []⟩)] ("Spain", ⟨none, some "ESP", []⟩)
    [("France", ⟨some "FR", some "FRA", []⟩)]
    (by decide) (by decide) (by decide) (Or.inl rfl)
    (by decide) (by decide) (Or.inl rfl)
  exact ⟨h.1, h.2, by decide⟩

theorem lookupA_isSome_iff (l : List (String × Int)) (d : String) :
    (lookupA l d).isSome ↔ d ∈ keysOf l := by
  simp [lookupA, keysOf, List.find?_isSome, List.mem_map, beq_iff_eq]

theorem sumKey_isSome_iff (qs : List (String × Int)) (d : String) :
    (sumKey qs d).isSome ↔ keyEntries qs d ≠ [] := by
  rw [sumKey]
  by_cases h : keyEntries qs d = [] <;> simp [h]

/-- C2: on a per-country history snapshot whose stored counts all parse as
integers, `history_region_world` succeeds with a history mapping in which
every date occurring in any entity's history appears exactly once, mapped
to the sum over all entities of that entity's (integer-coerced) count for
that date. -/
theorem world_aggregation_sums (α : Type) (st : Store α) (dt : String)
    (data : List (String × EntityH))
    (hload : st.csv dt = some data)
    (hparse : ∀ p ∈ flattenHist data, (pyInt p.2).isSome) :
    ∃ res, history_region_world st dt = Result.ok res ∧
      (∀ d, (keysOf res).count d = if d ∈ allDates data then 1 else 0) ∧
      (∀ d, d ∈ allDates data →
        lookupA res d =
          some ((data.map (fun ce => entityContrib ce.2 d)).sum)) := by
  refine ⟨accPure [] (parsedPairs (flattenHist data)), ?_, ?_, ?_⟩
  · unfold history_region_world
    rw [hload]
    dsimp only
    rw [aggAll_eq_flatten, aggPairs_ok _ _ hparse]
  · intro d
    have hnodup : (keysOf (accPure [] (parsedPairs (flattenHist data)))).Nodup :=
      nodup_keysOf_accPure _ [] List.nodup_nil
    have hlk : lookupA (accPure [] (parsedPairs (flattenHist data))) d =
        sumKey (parsedPairs (flattenHist data)) d := by
      rw [lookupA_accPure]
      rfl
    have hmem : d ∈ keysOf (accPure [] (parsedPairs (flattenHist data))) ↔
        d ∈ allDates data := by
      rw [← lookupA_isSome_iff, hlk, sumKey_isSome_iff, allDates]
      constructor
      · intro h
        by_contra h2
        exact h ((keyEntries_parsed_eq_nil_iff _ _).mpr h2)
      · intro h he
        exact (keyEntries_parsed_eq_nil_iff _ _).mp he h
    by_cases hd : d ∈ allDates data
    · rw [if_pos hd]
      have hm := hmem.mpr hd
      have h1 := List.nodup_iff_count_le_one.mp hnodup d
      have h2 := List.count_pos_iff.mpr hm
      omega
    · rw [if_neg hd]
      exact List.count_eq_zero.mpr (fun hm => hd (hmem.mp hm))
  · intro d hd
    have hlk : lookupA (accPure [] (parsedPairs (flattenHist data))) d =
        sumKey (parsedPairs (flattenHist data)) d := by
      rw [lookupA_accPure]
      rfl
    rw [hlk, sumKey_parsed_flatten, if_pos hd]

/-- Snapshot for the C2 witness: the spec's end-to-end example, with
counts serialized as numeric strings. -/
def dataC2 : List (String × EntityH) :=
  [("US", ⟨some "US", some "USA", [("2021-01-01", .jstr "10")]⟩),
   ("FR", ⟨some "FR", some "FRA", [("2021-01-01", .jstr "5")]⟩)]

/-- Store for the C2 witness. -/
def storeC2 : Store Unit :=
  { dataJson := none
    csv := fun dt => if dt = "confirmed" then some dataC2 else none
    csvRegion := fun _ => none
    csvUsRegion := fun _ => none }

/-- C2 witness: string counts "10" and "5" on the same date aggregate to
the integer 15, and the general theorem applies to this snapshot. -/
theorem world_aggregation_sums_witness :
    history_region_world storeC2 "confirmed" =
      Result.ok [("2021-01-01", 15)] ∧
    ∃ res, history_region_world storeC2 "confirmed" = Result.ok res ∧
      (∀ d, (keysOf res).count d = if d ∈ allDates dataC2 then 1 else 0) ∧
      (∀ d, d ∈ allDates dataC2 →
        lookupA res d =
          some ((dataC2.map (fun ce => entityContrib ce.2 d)).sum)) :=
  ⟨by decide,
    world_aggregation_sums Unit storeC2 "confirmed" dataC2 (by decide)
      (by decide)⟩

/-- C6: `history_region_world` turns both failure modes into the
structured 500-style error outcome: a snapshot that fails to load (for
example a `dataType` outside confirmed/recovered/deaths) yields the
`FileNotFoundError` response, and a stored count that cannot be parsed as
an integer yields an error response; being a total function, the model
never propagates an unhandled exception. -/
theorem world_aggregation_errors (α : Type) (st : Store α) (dt : String) :
    (st.csv dt = none →
      history_region_world st dt =
        Result.error (errMessage (.fileNotFound ("csv_" ++ dt ++ ".json")))) ∧
    (∀ data, st.csv dt = some data →
      (∃ p ∈ flattenHist data, pyInt p.2 = none) →
      ∃ m, history_region_world st dt = Result.error m) := by
  constructor
  · intro h
    unfold history_region_world
    rw [h]
  · intro data h hbad
    obtain ⟨m, hm⟩ := aggPairs_error (flattenHist data) [] hbad
    refine ⟨errMessage m, ?_⟩
    unfold history_region_world
    rw [h]
    dsimp only
    rw [aggAll_eq_flatten, hm]

/-- Snapshot for the C6 witness: a count that is not a numeral. -/
def dataC6 : List (String × EntityH) :=
  [("US", ⟨some "US", some "USA", [("2021-01-01", .jstr "abc")]⟩)]

/-- Store for the C6 witness: only the three documented data types load. -/
def storeC6 : Store Unit :=
  { dataJson := none
    csv := fun dt =>
      if dt = "confirmed" ∨ dt = "recovered" ∨ dt = "deaths" then some dataC6
      else none
    csvRegion := fun _ => none
    csvUsRegion := fun _ => none }

/-- C6 witness: the unsupported data type "bogus" surfaces as the
`FileNotFoundError` 500 response, and the unparseable count "abc"
surfaces as an error response. -/
theorem world_aggregation_errors_witness :
    history_region_world storeC6 "bogus" =
      Result.error (errMessage (.fileNotFound ("csv_" ++ "bogus" ++ ".json"))) ∧
    ∃ m, history_region_world storeC6 "confirmed" = Result.error m :=
  ⟨(world_aggregation_errors Unit storeC6 "bogus").1 (by decide),
   (world_aggregation_errors Unit storeC6 "confirmed").2 dataC6 (by decide)
     ⟨("2021-01-01", .jstr "abc"), by decide, by decide⟩⟩

/-- C7: the world aggregation is order-independent — for any permutation
of the snapshot's entity iteration order, every date is mapped to the
same sum. -/
theorem world_aggregation_perm (α : Type) (st st2 : Store α) (dt : String)
    (data data2 : List (String × EntityH))
    (h1 : st.csv dt = some data) (h2 : st2.csv dt = some data2)
    (hperm : data.Perm data2)
    (hparse : ∀ p ∈ flattenHist data, (pyInt p.2).isSome) :
    ∃ res res2, history_region_world st dt = Result.ok res ∧
      history_region_world st2 dt = Result.ok res2 ∧
      ∀ d, lookupA res d = lookupA res2 d := by
  have hflat := flattenHist_perm data data2 hperm
  have hparse2 : ∀ p ∈ flattenHist data2, (pyInt p.2).isSome :=
    fun p hp => hparse p (hflat.mem_iff.mpr hp)
  refine ⟨accPure [] (parsedPairs (flattenHist data)),
    accPure [] (parsedPairs (flattenHist data2)), ?_, ?_, ?_⟩
  · unfold history_region_world
    rw [h1]
    dsimp only
    rw [aggAll_eq_flatten, aggPairs_ok _ _ hparse]
  · unfold history_region_world
    rw [h2]
    dsimp only
    rw [aggAll_eq_flatten, aggPairs_ok _ _ hparse2]
  · intro d
    rw [lookupA_accPure, lookupA_accPure]
    exact congrArg (mergeOpt (lookupA [] d))
      (sumKey_perm _ _ (hflat.map _) d)

/-- Snapshot for the C7 witness. -/
def dataC7a : List (String × EntityH) :=
  [("US", ⟨some "US", some "USA",
     [("2021-01-01", .jstr "10"), ("2021-01-02", .jint 20)]⟩),
   ("FR", ⟨some "FR", some "FRA", [("2021-01-01", .jstr "5")]⟩)]

/-- The same snapshot with the entity order reversed. -/
def dataC7b : List (String × EntityH) :=
  [("FR", ⟨some "FR", some "FRA", [("2021-01-01", .jstr "5")]⟩),
   ("US", ⟨some "US", some "USA",
     [("2021-01-01", .jstr "10"), ("2021-01-02", .jint 20)]⟩)]

/-- Store serving the C7 witness snapshot in original order. -/
def storeC7a : Store Unit :=
  { dataJson := none
    csv := fun dt => if dt = "confirmed" then some dataC7a else none
    csvRegion := fun _ => none
    csvUsRegion := fun _ => none }

/-- Store serving the C7 witness snapshot in reversed order. -/
def storeC7b : Store Unit :=
  { dataJson := none
    csv := fun dt => if dt = "confirmed" then some dataC7b else none
    csvRegion := fun _ => none
    csvUsRegion := fun _ => none }

/-- C7 witness: the two iteration orders of the same snapshot produce
identical per-date sums. -/
theorem world_aggregation_perm_witness :
    ∃ res res2,
      history_region_world storeC7a "confirmed" = Result.ok res ∧
      history_region_world storeC7b "confirmed" = Result.ok res2 ∧
      ∀ d, lookupA res d = lookupA res2 d :=
  world_aggregation_perm Unit storeC7a storeC7b "confirmed" dataC7a dataC7b
    (by decide) (by decide) (by decide) (by decide)

/-- C8: starting from a cold cache, the first `getOrCompute` invokes the
computation and stores its outcome; a second call with the identical key
strictly within the fixed 15-minute TTL re-serves the stored response
(whatever it is — error responses included, since the cached value is the
response itself) without invoking the computation and without changing the
cache; a further call at or after expiry invokes the computation again.
The TTL is the fixed `15 * 60` seconds configured in `src/app.py`. -/
theorem cache_idempotence (α : Type) (c0 : CacheState α)
    (k : String × List String) (t1 t2 t3 : Nat) (f g h3 : Unit → α)
    (hmiss : cacheLookup c0 k = none)
    (hwin : t2 < t1 + TTL)
    (hexp : t1 + TTL ≤ t3) :
    (getOrCompute c0 k t1 f).2.2 = true ∧
    (getOrCompute c0 k t1 f).1 = f () ∧
    getOrCompute (getOrCompute c0 k t1 f).2.1 k t2 g =
      (f (), (getOrCompute c0 k t1 f).2.1, false) ∧
    (getOrCompute (getOrCompute c0 k t1 f).2.1 k t3 h3).2.2 = true ∧
    (getOrCompute (getOrCompute c0 k t1 f).2.1 k t3 h3).1 = h3 () ∧
    TTL = 15 * 60 := by
  have hc1 : getOrCompute c0 k t1 f =
      (f (), ⟨(k, f (), t1 + TTL) :: c0.entries.filter (fun e => !(e.1 == k))⟩,
        true) := by
    rw [getOrCompute, hmiss]
  have hlk : cacheLookup
      ⟨(k, f (), t1 + TTL) :: c0.entries.filter (fun e => !(e.1 == k))⟩ k =
      some (f (), t1 + TTL) := by
    unfold cacheLookup
    rw [List.find?_cons_of_pos _ (by simp)]
    rfl
  refine ⟨by rw [hc1], by rw [hc1], ?_, ?_, ?_, rfl⟩
  · rw [hc1]
    rw [getOrCompute, hlk]
    dsimp only
    rw [if_pos hwin]
  · rw [hc1]
    rw [getOrCompute, hlk]
    dsimp only
    rw [if_neg (Nat.not_lt.mpr hexp)]
  · rw [hc1]
    rw [getOrCompute, hlk]
    dsimp only
    rw [if_neg (Nat.not_lt.mpr hexp)]

/-- C8 witness: a cached 404-style outcome for the key
`("history_country", ["confirmed", "narnia"])` is re-served unchanged at
`t = 899` s and recomputed at `t = 900` s = 15 minutes. -/
theorem cache_idempotence_witness :
    (getOrCompute (CacheState.mk ([] : List ((String × List String) ×
        Result Unit × Nat))) ("history_country", ["confirmed", "narnia"]) 0
        (fun _ => Result.notFound "CountryNotFound : no match")).2.2 = true ∧
    (getOrCompute (CacheState.mk ([] : List ((String × List String) ×
        Result Unit × Nat))) ("history_country", ["confirmed", "narnia"]) 0
        (fun _ => Result.notFound "CountryNotFound : no match")).1 =
      Result.notFound "CountryNotFound : no match" ∧
    getOrCompute (getOrCompute (CacheState.mk ([] : List ((String × List String) ×
        Result Unit × Nat))) ("history_country", ["confirmed", "narnia"]) 0
        (fun _ => Result.notFound "CountryNotFound : no match")).2.1
        ("history_country", ["confirmed", "narnia"]) 899
        (fun _ => Result.ok ()) =
      (Result.notFound "CountryNotFound : no match",
        (getOrCompute (CacheState.mk ([] : List ((String × List String) ×
          Result Unit × Nat))) ("history_country", ["confirmed", "narnia"]) 0
          (fun _ => Result.notFound "CountryNotFound : no match")).2.1,
        false) ∧
    (getOrCompute (getOrCompute (CacheState.mk ([] : List ((String × List String) ×
        Result Unit × Nat))) ("history_country", ["confirmed", "narnia"]) 0
        (fun _ => Result.notFound "CountryNotFound : no match")).2.1
        ("history_country", ["confirmed", "narnia"]) 900
        (fun _ => Result.ok ())).2.2 = true ∧
    (getOrCompute (getOrCompute (CacheState.mk ([] : List ((String × List String) ×
        Result Unit × Nat))) ("history_country", ["confirmed", "narnia"]) 0
        (fun _ => Result.notFound "CountryNotFound : no match")).2.1
        ("history_country", ["confirmed", "narnia"]) 900
        (fun _ => Result.ok ())).1 = Result.ok () ∧
    TTL = 15 * 60 := by
  have h := cache_idempotence (Result Unit)
    (CacheState.mk ([] : List ((String × List String) × Result Unit × Nat)))
    ("history_country", ["confirmed", "narnia"]) 0 899 900
    (fun _ => Result.notFound "CountryNotFound : no match")
    (fun _ => Result.ok ()) (fun _ => Result.ok ())
    rfl (by decide) (by decide)
  exact h

end Covid
